import Mathlib

/-!
Verification of `respostas/generate_sql.py`: a script that turns two
tab-separated datasets (Comunidades, Perfis) into a `schema.sql` and an
`insert.sql` text.  The Python functions `normalizar_nome_coluna`,
`escapar_sql_string`, `inferir_tipo_coluna`, `gerar_schema` and
`gerar_inserts` are embedded below as executable Lean definitions over
`String` / `List Char`, and the stated properties of the script are proved
about them.
-/

namespace GenerateSql

/-! ## Column normalizer (`normalizar_nome_coluna`) -/

/-- Models the accent-removal step of the source,
the NFKD normalization of the name followed by dropping all combining
characters, character by character: ASCII characters are unchanged,
combining marks (U+0300..U+036F) are dropped, and the accented Latin
letters (the ones NFKD decomposes into a base letter plus combining marks)
are mapped to their base letter.  Characters outside the modelled table are
left unchanged; every property proved below about the normalizer holds for
an arbitrary result of this step, because the following regex step confines
the alphabet to `[A-Za-z0-9_]`. -/
def nfkdSemAcento (c : Char) : List Char :=
  if c.toNat < 128 then [c]
  else if 0x300 ≤ c.toNat ∧ c.toNat ≤ 0x36F then []
  else
    match c with
    | 'á' | 'à' | 'â' | 'ã' | 'ä' | 'å' => ['a']
    | 'Á' | 'À' | 'Â' | 'Ã' | 'Ä' | 'Å' => ['A']
    | 'é' | 'è' | 'ê' | 'ë' => ['e']
    | 'É' | 'È' | 'Ê' | 'Ë' => ['E']
    | 'í' | 'ì' | 'î' | 'ï' => ['i']
    | 'Í' | 'Ì' | 'Î' | 'Ï' => ['I']
    | 'ó' | 'ò' | 'ô' | 'õ' | 'ö' => ['o']
    | 'Ó' | 'Ò' | 'Ô' | 'Õ' | 'Ö' => ['O']
    | 'ú' | 'ù' | 'û' | 'ü' => ['u']
    | 'Ú' | 'Ù' | 'Û' | 'Ü' => ['U']
    | 'ç' => ['c']
    | 'Ç' => ['C']
    | 'ñ' => ['n']
    | 'Ñ' => ['N']
    | 'ý' | 'ÿ' => ['y']
    | 'Ý' => ['Y']
    | _ => [c]

/-- Models the source line that joins the NFKD characters of the name while dropping the combining marks. -/
def removerAcentos (l : List Char) : List Char :=
  l.flatMap nfkdSemAcento

/-- The character class `[a-zA-Z0-9]` of the regex in the source. -/
def ehAlnumAscii (c : Char) : Bool :=
  c.isUpper || c.isLower || c.isDigit

/-- How one character fares under the regex substitution of the source:
kept if ASCII alphanumeric, otherwise turned into `_`. -/
def paraSublinhado (c : Char) : Char :=
  if ehAlnumAscii c then c else '_'

/-- Collapses every run of consecutive `_` to a single `_`. -/
def colapsaSublinhados : List Char → List Char
  | [] => []
  | [c] => [c]
  | a :: b :: resto =>
    if a = '_' ∧ b = '_' then colapsaSublinhados (b :: resto)
    else a :: colapsaSublinhados (b :: resto)

/-- Models the regex substitution of the source: each maximal run of
characters outside `[a-zA-Z0-9]` becomes a single `_`.  (Mapping every such
character to `_` and then collapsing runs of `_` is exactly that.) -/
def substituiNaoAlnum (l : List Char) : List Char :=
  colapsaSublinhados (l.map paraSublinhado)

/-- Models the Python strip step: removes leading and trailing `_`. -/
def tiraSublinhados (l : List Char) : List Char :=
  ((l.dropWhile (fun c => c == '_')).reverse.dropWhile (fun c => c == '_')).reverse

/-- Models the digit-guard step of the source: when the result is non-empty
and starts with a digit, the prefix q_ is prepended.  (At this point every
character is in the class a-z, A-Z, 0-9 or underscore, so the Python digit
test agrees with `Char.isDigit`.) -/
def prefixaDigito (l : List Char) : List Char :=
  match l with
  | [] => []
  | c :: resto => if c.isDigit then 'q' :: '_' :: c :: resto else c :: resto

/-- The whole body of `normalizar_nome_coluna`, on the character list; the
final `.lower()` is applied character-wise (the string is ASCII by then). -/
def normalizaLista (l : List Char) : List Char :=
  (prefixaDigito (tiraSublinhados (substituiNaoAlnum (removerAcentos l)))).map Char.toLower

/-- Embeds the source function normalizar_nome_coluna. -/
def normalizar_nome_coluna (nome : String) : String :=
  String.mk (normalizaLista nome.data)

/-! ## Value escaper (`escapar_sql_string`) -/

/-- The whitespace characters removed by the Python strip method (the ASCII
ones; the exotic Unicode space characters play no role here). -/
def ehEspaco (c : Char) : Bool :=
  c == ' ' || c == '\t' || c == '\n' || c == '\r' || c == '\x0b' || c == '\x0c'

/-- Models the Python strip method. -/
def tiraEspacos (s : String) : String :=
  String.mk (((s.data.dropWhile ehEspaco).reverse.dropWhile ehEspaco).reverse)

/-- Models the Python lower method, character-wise (ASCII case mapping; it
is only used for comparisons against ASCII keyword strings). -/
def minusculas (s : String) : String :=
  String.mk (s.data.map Char.toLower)

/-- Models the replace step of the source: doubles every single quote. -/
def escaparAspas : List Char → List Char
  | [] => []
  | c :: resto =>
    if c == '\'' then '\'' :: '\'' :: escaparAspas resto
    else c :: escaparAspas resto

/-- Embeds the source function escapar_sql_string; `none` models the Python
value None. -/
def escapar_sql_string (valor : Option String) : String :=
  match valor with
  | none => "NULL"
  | some v =>
    if v = "" then "NULL"
    else
      let valor := tiraEspacos v
      if valor = "" ∨ minusculas valor = "sem resposta*" then "NULL"
      else "'" ++ String.mk (escaparAspas valor.data) ++ "'"

/-! ## Type inferrer (`inferir_tipo_coluna`) -/

/-- Models the Python substring test, on character lists. -/
def contemLista (s sub : List Char) : Bool :=
  s.tails.any (fun t => sub.isPrefixOf t)

/-- Models the Python substring test, on strings. -/
def contem (s sub : String) : Bool :=
  contemLista s.data sub.data

/-- Embeds the source function inferir_tipo_coluna. -/
def inferir_tipo_coluna (nome_original : String) : String :=
  let nome_lower := minusculas nome_original
  if contem nome_lower "id" || contem nome_lower "numero" || contem nome_lower "questionario" then
    "INTEGER"
  else if contem nome_lower "idade" || contem nome_lower "populacao" || contem nome_lower "familias" then
    "INTEGER"
  else
    "TEXT"

/-! ## Schema generator (`gerar_schema`) -/

/-- Models the Python join method on a list of strings. -/
def juntaCom (sep : String) : List String → String
  | [] => ""
  | [s] => s
  | s :: resto => s ++ sep ++ juntaCom sep resto

/-- The `colunas` list built by the comunidades loop of `gerar_schema`. -/
def comunidadesColunas (comunidades_campos : List String) : List String :=
  comunidades_campos.map (fun campo =>
    let nome_norm := normalizar_nome_coluna campo
    let tipo := inferir_tipo_coluna campo
    if contem (minusculas campo) "numero" && contem (minusculas campo) "questionario" then
      "    " ++ nome_norm ++ " " ++ tipo ++ " PRIMARY KEY"
    else
      "    " ++ nome_norm ++ " " ++ tipo)

/-- The `colunas` list built by the perfis loop of `gerar_schema`
(`for i, campo in enumerate(perfis_campos)`), written as a recursion on the
field list carrying the loop index `i`: each iteration appends the
synthetic key line when the index is 0, then the own column line of the
field, plus a
FOREIGN KEY line for a field whose lowered name contains `id` and
`questionario`. -/
def perfisColunasVai : Nat → List String → List String
  | _, [] => []
  | i, campo :: resto =>
    (if i = 0 then ["    perfil_id INTEGER PRIMARY KEY AUTOINCREMENT"] else []) ++
    (if contem (minusculas campo) "id" && contem (minusculas campo) "questionario" then
      ["    " ++ normalizar_nome_coluna campo ++ " " ++ inferir_tipo_coluna campo,
       "    FOREIGN KEY (" ++ normalizar_nome_coluna campo ++ ") REFERENCES comunidades(numero_do_questionario)"]
     else
      ["    " ++ normalizar_nome_coluna campo ++ " " ++ inferir_tipo_coluna campo]) ++
    perfisColunasVai (i + 1) resto

/-- The complete perfis `colunas` list (the loop starts at index 0). -/
def perfisColunas (perfis_campos : List String) : List String :=
  perfisColunasVai 0 perfis_campos

/-- The `sql` line list built by `gerar_schema` before `"\n".join(sql)`. -/
def gerar_schema_linhas (comunidades_campos perfis_campos : List String) : List String :=
  ["-- Schema gerado automaticamente",
   "-- Encoding: UTF-8\n",
   "DROP TABLE IF EXISTS perfis;",
   "DROP TABLE IF EXISTS comunidades;\n",
   "CREATE TABLE comunidades ("]
  ++ [juntaCom ",\n" (comunidadesColunas comunidades_campos)]
  ++ [");\n",
      "CREATE TABLE perfis ("]
  ++ [juntaCom ",\n" (perfisColunas perfis_campos)]
  ++ [");\n"]

/-- Embeds the source function gerar_schema. -/
def gerar_schema (comunidades_campos perfis_campos : List String) : String :=
  juntaCom "\n" (gerar_schema_linhas comunidades_campos perfis_campos)

/-! ## Insert generator (`gerar_inserts`) -/

/-- A row as produced by `csv.DictReader`: a mapping from raw field name to
raw string value, modelled as an association list. -/
def Registro : Type := List (String × String)

/-- Models the Python dict get with an empty-string default. -/
def buscaCampo (linha : Registro) (c : String) : String :=
  ((List.lookup c linha).getD "")

/-- The body of the comunidades loop of `gerar_inserts`: the three lines
appended for one record (`INSERT INTO ...`, `VALUES ...;`, and `""`). -/
def blocoComunidade (comunidades_campos : List String) (linha : Registro) : List String :=
  let colunas_norm := comunidades_campos.map normalizar_nome_coluna
  let valores := comunidades_campos.map (fun c => escapar_sql_string (some (buscaCampo linha c)))
  ["INSERT INTO comunidades (" ++ juntaCom ", " colunas_norm ++ ")",
   "VALUES (" ++ juntaCom ", " valores ++ ");",
   ""]

/-- The body of the perfis loop of `gerar_inserts`. -/
def blocoPerfil (perfis_campos : List String) (linha : Registro) : List String :=
  let colunas_norm := perfis_campos.map normalizar_nome_coluna
  let valores := perfis_campos.map (fun c => escapar_sql_string (some (buscaCampo linha c)))
  ["INSERT INTO perfis (" ++ juntaCom ", " colunas_norm ++ ")",
   "VALUES (" ++ juntaCom ", " valores ++ ");",
   ""]

/-- The `sql` line list built by `gerar_inserts` before `"\n".join(sql)`. -/
def gerar_inserts_linhas (comunidades_dados : List Registro) (comunidades_campos : List String)
    (perfis_dados : List Registro) (perfis_campos : List String) : List String :=
  ["-- Inserts gerados automaticamente",
   "-- Encoding: UTF-8\n",
   "-- Inserindo comunidades\n"]
  ++ (comunidades_dados.map (blocoComunidade comunidades_campos)).flatten
  ++ ["\n-- Inserindo perfis\n"]
  ++ (perfis_dados.map (blocoPerfil perfis_campos)).flatten

/-- Embeds the source function gerar_inserts. -/
def gerar_inserts (comunidades_dados : List Registro) (comunidades_campos : List String)
    (perfis_dados : List Registro) (perfis_campos : List String) : String :=
  juntaCom "\n" (gerar_inserts_linhas comunidades_dados comunidades_campos perfis_dados perfis_campos)


/-! ## Verification-layer definitions -/

/-- The character class of every normalizer output: `[a-z0-9_]`. -/
def ehMinusculaOk (c : Char) : Prop :=
  c.isLower = true ∨ c.isDigit = true ∨ c = '_'

/-- No two adjacent underscores. -/
def SemDuplos : List Char → Prop
  | [] => True
  | [_] => True
  | a :: b :: resto => ¬(a = '_' ∧ b = '_') ∧ SemDuplos (b :: resto)

/-- The shape of every normalizer output: only `[a-z0-9_]` characters, no
leading/trailing underscore, no two adjacent underscores, and the first
character is not a digit. -/
def BoaForma (l : List Char) : Prop :=
  (∀ c ∈ l, ehMinusculaOk c) ∧
  (∀ c, l.head? = some c → c ≠ '_' ∧ c.isDigit = false) ∧
  (∀ c, l.getLast? = some c → c ≠ '_') ∧
  SemDuplos l

/-- Every run of single quotes has even length: no un-doubled quote. -/
def aspasDuplicadas : List Char → Bool
  | [] => true
  | [c] => !(c == '\'')
  | c :: d :: resto =>
    if c == '\'' then (d == '\'') && aspasDuplicadas resto
    else aspasDuplicadas (d :: resto)

/-- The lines contributed by one perfis field after index 0. -/
def linhasCampoPerfil (campo : String) : List String :=
  if contem (minusculas campo) "id" && contem (minusculas campo) "questionario" then
    ["    " ++ normalizar_nome_coluna campo ++ " " ++ inferir_tipo_coluna campo,
     "    FOREIGN KEY (" ++ normalizar_nome_coluna campo ++ ") REFERENCES comunidades(numero_do_questionario)"]
  else
    ["    " ++ normalizar_nome_coluna campo ++ " " ++ inferir_tipo_coluna campo]

/-- Tests that the line l starts with the text p. -/
def comecaCom (p l : String) : Bool :=
  p.data.isPrefixOf l.data

/-! ## Properties -/


theorem uint32_le_iff (a b : UInt32) : a ≤ b ↔ a.toNat ≤ b.toNat := by
  simp [UInt32.le_def, BitVec.le_def, UInt32.toNat]

theorem isUpper_iff (c : Char) : c.isUpper = true ↔ 65 ≤ c.toNat ∧ c.toNat ≤ 90 := by
  have h1 : (65 : UInt32).toNat = 65 := rfl
  have h2 : (90 : UInt32).toNat = 90 := rfl
  simp [Char.isUpper, uint32_le_iff, Char.toNat, h1, h2]
  norm_num [UInt32.size]

theorem isLower_iff (c : Char) : c.isLower = true ↔ 97 ≤ c.toNat ∧ c.toNat ≤ 122 := by
  have h1 : (97 : UInt32).toNat = 97 := rfl
  have h2 : (122 : UInt32).toNat = 122 := rfl
  simp [Char.isLower, uint32_le_iff, Char.toNat, h1, h2]
  norm_num [UInt32.size]

theorem isDigit_iff (c : Char) : c.isDigit = true ↔ 48 ≤ c.toNat ∧ c.toNat ≤ 57 := by
  have h1 : (48 : UInt32).toNat = 48 := rfl
  have h2 : (57 : UInt32).toNat = 57 := rfl
  simp [Char.isDigit, uint32_le_iff, Char.toNat, h1, h2]
  norm_num [UInt32.size]

theorem toLower_fora (c : Char) (h : ¬(65 ≤ c.toNat ∧ c.toNat ≤ 90)) : Char.toLower c = c := by
  unfold Char.toLower
  exact if_neg h

theorem toLower_de_minuscula (c : Char) (h : ehMinusculaOk c) : Char.toLower c = c := by
  apply toLower_fora
  rcases h with h | h | h
  · rw [isLower_iff] at h; omega
  · rw [isDigit_iff] at h; omega
  · subst h; decide

theorem toLower_de_maiuscula (c : Char) (h : c.isUpper = true) :
    (Char.toLower c).isLower = true := by
  rw [isUpper_iff] at h
  unfold Char.toLower
  rw [if_pos h]
  obtain ⟨h1, h2⟩ := h
  set m := c.toNat with hm
  interval_cases m <;> decide

theorem ehAlnumAscii_mais (c : Char) (h : ehAlnumAscii c = true ∨ c = '_') :
    ehMinusculaOk (Char.toLower c) ∧
      (Char.toLower c = '_' ↔ c = '_') ∧ (Char.toLower c).isDigit = c.isDigit := by
  rcases h with h | h
  · simp only [ehAlnumAscii, Bool.or_eq_true] at h
    rcases h with (h | h) | h
    · have hl := toLower_de_maiuscula c h
      rw [isUpper_iff] at h
      have hne : Char.toLower c ≠ '_' := by
        intro he
        rw [he] at hl
        exact absurd hl (by decide)
      have hcne : c ≠ '_' := by
        intro he
        subst he
        revert h
        decide
      refine ⟨Or.inl hl, ⟨fun he => absurd he hne, fun he => absurd he hcne⟩, ?_⟩
      have hdl : (Char.toLower c).isDigit = false := by
        rw [isLower_iff] at hl
        cases hd : (Char.toLower c).isDigit
        · rfl
        · rw [isDigit_iff] at hd; omega
      have hdc : c.isDigit = false := by
        cases hd : c.isDigit
        · rfl
        · rw [isDigit_iff] at hd; omega
      rw [hdl, hdc]
    · have he : Char.toLower c = c := toLower_de_minuscula c (Or.inl h)
      rw [he]
      exact ⟨Or.inl h, Iff.rfl, rfl⟩
    · have he : Char.toLower c = c := toLower_de_minuscula c (Or.inr (Or.inl h))
      rw [he]
      exact ⟨Or.inr (Or.inl h), Iff.rfl, rfl⟩
  · subst h
    exact ⟨Or.inr (Or.inr (by decide)), by simp, by decide⟩

theorem semDuplos_cauda {x : Char} {t : List Char} (h : SemDuplos (x :: t)) : SemDuplos t := by
  cases t with
  | nil => trivial
  | cons b r => exact h.2

theorem semDuplos_appendEsq : ∀ {l t : List Char}, SemDuplos (l ++ t) → SemDuplos l := by
  intro l
  induction l with
  | nil => intro t _; trivial
  | cons a resto ih =>
    intro t h
    cases resto with
    | nil => trivial
    | cons b r =>
      exact ⟨h.1, ih (t := t) h.2⟩

theorem semDuplos_appendDir : ∀ {l t : List Char}, SemDuplos (l ++ t) → SemDuplos t := by
  intro l
  induction l with
  | nil => intro t h; exact h
  | cons a resto ih =>
    intro t h
    exact ih (semDuplos_cauda h)

theorem mem_colapsa : ∀ {l : List Char} {c : Char}, c ∈ colapsaSublinhados l → c ∈ l := by
  intro l
  induction l with
  | nil => intro c h; exact absurd h (by simp [colapsaSublinhados])
  | cons a resto ih =>
    intro c h
    cases resto with
    | nil =>
      simpa [colapsaSublinhados] using h
    | cons b r =>
      rw [colapsaSublinhados] at h
      by_cases hab : a = '_' ∧ b = '_'
      · rw [if_pos hab] at h
        exact List.mem_cons_of_mem a (ih h)
      · rw [if_neg hab] at h
        rcases List.mem_cons.mp h with h | h
        · exact h ▸ List.mem_cons_self a (b :: r)
        · exact List.mem_cons_of_mem a (ih h)

theorem colapsa_head : ∀ (x : Char) (t : List Char),
    (colapsaSublinhados (x :: t)).head? = some x := by
  intro x t
  induction t generalizing x with
  | nil => rfl
  | cons b r ih =>
    rw [colapsaSublinhados]
    by_cases hab : x = '_' ∧ b = '_'
    · rw [if_pos hab, ih b, hab.1, hab.2]
    · rw [if_neg hab]
      rfl

theorem semDuplos_colapsa : ∀ (l : List Char), SemDuplos (colapsaSublinhados l) := by
  intro l
  induction l with
  | nil => trivial
  | cons a resto ih =>
    cases resto with
    | nil => trivial
    | cons b r =>
      rw [colapsaSublinhados]
      by_cases hab : a = '_' ∧ b = '_'
      · rw [if_pos hab]
        exact ih
      · rw [if_neg hab]
        have hh := colapsa_head b r
        rcases he : colapsaSublinhados (b :: r) with _ | ⟨y, t⟩
        · trivial
        · rw [he] at hh ih
          simp at hh
          exact ⟨fun hc => hab ⟨hc.1, hh ▸ hc.2⟩, ih⟩

theorem head_dropWhile {p : Char → Bool} {l : List Char} {c : Char}
    (h : (l.dropWhile p).head? = some c) : p c = false := by
  have hh := List.head?_dropWhile_not p l
  rw [h] at hh
  exact hh

theorem dropWhile_sufixo (p : Char → Bool) (l : List Char) :
    ∃ t, l = t ++ l.dropWhile p :=
  ⟨l.takeWhile p, (List.takeWhile_append_dropWhile p l).symm⟩

theorem tira_head {l : List Char} {c : Char}
    (h : (tiraSublinhados l).head? = some c) : c ≠ '_' := by
  unfold tiraSublinhados at h
  rw [List.head?_reverse] at h
  obtain ⟨t, ht⟩ := dropWhile_sufixo (fun c => c == '_') (l.dropWhile (fun c => c == '_')).reverse
  have h2 : (l.dropWhile (fun c => c == '_')).reverse.getLast? = some c := by
    rw [ht, List.getLast?_append, h]
    rfl
  rw [List.getLast?_reverse] at h2
  have := head_dropWhile h2
  simpa using this

theorem tira_getLast {l : List Char} {c : Char}
    (h : (tiraSublinhados l).getLast? = some c) : c ≠ '_' := by
  unfold tiraSublinhados at h
  rw [List.getLast?_reverse] at h
  have := head_dropWhile h
  simpa using this

theorem mem_dropWhile {p : Char → Bool} {l : List Char} {c : Char}
    (h : c ∈ l.dropWhile p) : c ∈ l := by
  obtain ⟨t, ht⟩ := dropWhile_sufixo p l
  rw [ht]
  exact List.mem_append_right t h

theorem mem_tira {l : List Char} {c : Char} (h : c ∈ tiraSublinhados l) : c ∈ l := by
  unfold tiraSublinhados at h
  rw [List.mem_reverse] at h
  have h1 := mem_dropWhile h
  rw [List.mem_reverse] at h1
  exact mem_dropWhile h1

theorem semDuplos_tira {l : List Char} (h : SemDuplos l) : SemDuplos (tiraSublinhados l) := by
  unfold tiraSublinhados
  obtain ⟨t1, ht1⟩ := dropWhile_sufixo (fun c => c == '_') l
  have hd : SemDuplos (l.dropWhile (fun c => c == '_')) := semDuplos_appendDir (ht1 ▸ h)
  obtain ⟨t2, ht2⟩ := dropWhile_sufixo (fun c => c == '_') (l.dropWhile (fun c => c == '_')).reverse
  have he : l.dropWhile (fun c => c == '_') =
      ((l.dropWhile (fun c => c == '_')).reverse.dropWhile (fun c => c == '_')).reverse
        ++ t2.reverse := by
    have := congrArg List.reverse ht2
    simpa [List.reverse_append] using this
  exact semDuplos_appendEsq (he ▸ hd)

theorem mem_subst {l : List Char} {c : Char} (h : c ∈ substituiNaoAlnum l) :
    ehAlnumAscii c = true ∨ c = '_' := by
  unfold substituiNaoAlnum at h
  have h1 := mem_colapsa h
  rw [List.mem_map] at h1
  obtain ⟨d, _, hd⟩ := h1
  unfold paraSublinhado at hd
  by_cases hda : ehAlnumAscii d = true
  · rw [if_pos hda] at hd
    exact Or.inl (hd ▸ hda)
  · rw [if_neg hda] at hd
    exact Or.inr hd.symm

theorem digito_nao_sub {c : Char} (h : c.isDigit = true) : c ≠ '_' := by
  intro he
  subst he
  exact absurd h (by decide)

theorem semDuplos_map_toLower : ∀ {l : List Char},
    (∀ c ∈ l, ehAlnumAscii c = true ∨ c = '_') → SemDuplos l →
      SemDuplos (l.map Char.toLower) := by
  intro l
  induction l with
  | nil => intro _ _; trivial
  | cons a resto ih =>
    intro hdom hdup
    cases resto with
    | nil => trivial
    | cons b r =>
      have hda := hdom a (List.mem_cons_self a _)
      have hdb := hdom b (List.mem_cons_of_mem a (List.mem_cons_self b _))
      refine ⟨?_, ih (fun c hc => hdom c (List.mem_cons_of_mem a hc)) hdup.2⟩
      intro hc
      exact hdup.1 ⟨(ehAlnumAscii_mais a hda).2.1.mp hc.1, (ehAlnumAscii_mais b hdb).2.1.mp hc.2⟩

theorem mem_de_head {l : List Char} {d : Char} (h : l.head? = some d) : d ∈ l := by
  cases l with
  | nil => exact absurd h (by simp)
  | cons a t =>
    simp at h
    exact h ▸ List.mem_cons_self a t

theorem mem_de_getLast {l : List Char} {d : Char} (h : l.getLast? = some d) : d ∈ l := by
  rw [← List.head?_reverse] at h
  exact List.mem_reverse.mp (mem_de_head h)

theorem prefixa_mem {t : List Char}
    (tmem : ∀ c ∈ t, ehAlnumAscii c = true ∨ c = '_') :
    ∀ c ∈ prefixaDigito t, ehAlnumAscii c = true ∨ c = '_' := by
  intro c hc
  cases t with
  | nil => exact absurd hc (by simp [prefixaDigito])
  | cons x resto =>
    rw [prefixaDigito] at hc
    by_cases hx : x.isDigit = true
    · rw [if_pos hx] at hc
      rcases List.mem_cons.mp hc with h | hc
      · exact Or.inl (by rw [h]; decide)
      rcases List.mem_cons.mp hc with h | hc
      · exact Or.inr h
      · exact tmem c hc
    · rw [if_neg hx] at hc
      exact tmem c hc

theorem prefixa_head {t : List Char}
    (thead : ∀ c, t.head? = some c → c ≠ '_') :
    ∀ c, (prefixaDigito t).head? = some c → c ≠ '_' ∧ c.isDigit = false := by
  intro c hc
  cases t with
  | nil => exact absurd hc (by simp [prefixaDigito])
  | cons x resto =>
    rw [prefixaDigito] at hc
    by_cases hx : x.isDigit = true
    · rw [if_pos hx] at hc
      simp at hc
      subst hc
      exact ⟨by decide, by decide⟩
    · rw [if_neg hx] at hc
      simp at hc
      subst hc
      exact ⟨thead _ rfl, Bool.not_eq_true _ ▸ hx⟩

theorem prefixa_getLast {t : List Char}
    (tlast : ∀ c, t.getLast? = some c → c ≠ '_') :
    ∀ c, (prefixaDigito t).getLast? = some c → c ≠ '_' := by
  intro c hc
  cases t with
  | nil => exact absurd hc (by simp [prefixaDigito])
  | cons x resto =>
    rw [prefixaDigito] at hc
    by_cases hx : x.isDigit = true
    · rw [if_pos hx] at hc
      rw [List.getLast?_cons_cons, List.getLast?_cons_cons] at hc
      exact tlast c hc
    · rw [if_neg hx] at hc
      exact tlast c hc

theorem prefixa_semDuplos {t : List Char} (tdup : SemDuplos t) :
    SemDuplos (prefixaDigito t) := by
  cases t with
  | nil => trivial
  | cons x resto =>
    rw [prefixaDigito]
    by_cases hx : x.isDigit = true
    · rw [if_pos hx]
      exact ⟨fun hq => absurd hq.1 (by decide),
        fun hq => absurd hq.2 (digito_nao_sub hx), tdup⟩
    · rw [if_neg hx]
      exact tdup

/-- The output of the normalizer pipeline always has the normal shape. -/
theorem boaForma_normaliza (l : List Char) : BoaForma (normalizaLista l) := by
  unfold normalizaLista
  have tmem : ∀ c ∈ tiraSublinhados (substituiNaoAlnum (removerAcentos l)),
      ehAlnumAscii c = true ∨ c = '_' := fun c hc => mem_subst (mem_tira hc)
  have tdup : SemDuplos (tiraSublinhados (substituiNaoAlnum (removerAcentos l))) :=
    semDuplos_tira (semDuplos_colapsa _)
  have humem := prefixa_mem tmem
  have huhead := prefixa_head (t := tiraSublinhados (substituiNaoAlnum (removerAcentos l)))
    (fun c hc => tira_head hc)
  have hulast := prefixa_getLast (t := tiraSublinhados (substituiNaoAlnum (removerAcentos l)))
    (fun c hc => tira_getLast hc)
  have hudup := prefixa_semDuplos tdup
  refine ⟨?_, ?_, ?_, ?_⟩
  · intro c hc
    rw [List.mem_map] at hc
    obtain ⟨d, hd, hdc⟩ := hc
    exact hdc ▸ (ehAlnumAscii_mais d (humem d hd)).1
  · intro c hc
    rw [List.head?_map] at hc
    rcases hu : (prefixaDigito (tiraSublinhados (substituiNaoAlnum (removerAcentos l)))).head?
      with _ | d
    · rw [hu] at hc; exact absurd hc (by simp)
    · rw [hu] at hc
      simp at hc
      obtain ⟨hd1, hd2⟩ := huhead d hu
      have hm := ehAlnumAscii_mais d (humem d (mem_de_head hu))
      constructor
      · intro he
        exact hd1 (hm.2.1.mp (hc ▸ he))
      · rw [← hc, hm.2.2]
        exact hd2
  · intro c hc
    rw [List.getLast?_map] at hc
    rcases hu : (prefixaDigito (tiraSublinhados (substituiNaoAlnum (removerAcentos l)))).getLast?
      with _ | d
    · rw [hu] at hc; exact absurd hc (by simp)
    · rw [hu] at hc
      simp at hc
      have hd1 := hulast d hu
      have hm := ehAlnumAscii_mais d (humem d (mem_de_getLast hu))
      intro he
      exact hd1 (hm.2.1.mp (hc ▸ he))
  · exact semDuplos_map_toLower humem hudup

theorem minuscula_lt128 {c : Char} (h : ehMinusculaOk c) : c.toNat < 128 := by
  rcases h with h | h | h
  · rw [isLower_iff] at h; omega
  · rw [isDigit_iff] at h; omega
  · subst h; decide

theorem mapaId {f : Char → Char} : ∀ {l : List Char}, (∀ c ∈ l, f c = c) → l.map f = l := by
  intro l
  induction l with
  | nil => intro _; rfl
  | cons a resto ih =>
    intro h
    rw [List.map_cons, h a (List.mem_cons_self a resto),
      ih (fun c hc => h c (List.mem_cons_of_mem a hc))]

theorem removerAcentos_id : ∀ {l : List Char}, (∀ c ∈ l, c.toNat < 128) → removerAcentos l = l := by
  intro l
  induction l with
  | nil => intro _; rfl
  | cons a resto ih =>
    intro h
    unfold removerAcentos at ih ⊢
    rw [List.flatMap_cons, ih (fun c hc => h c (List.mem_cons_of_mem a hc))]
    have ha : nfkdSemAcento a = [a] := by
      unfold nfkdSemAcento
      rw [if_pos (h a (List.mem_cons_self a resto))]
    rw [ha]
    rfl

theorem paraSublinhado_id {c : Char} (h : ehMinusculaOk c) : paraSublinhado c = c := by
  unfold paraSublinhado
  rcases h with h | h | h
  · rw [if_pos (by simp [ehAlnumAscii, h])]
  · rw [if_pos (by simp [ehAlnumAscii, h])]
  · subst h
    rw [if_neg (by decide)]

theorem colapsa_id : ∀ {l : List Char}, SemDuplos l → colapsaSublinhados l = l := by
  intro l
  induction l with
  | nil => intro _; rfl
  | cons a resto ih =>
    intro h
    cases resto with
    | nil => rfl
    | cons b r =>
      rw [colapsaSublinhados, if_neg h.1, ih h.2]

theorem dropWhile_id {p : Char → Bool} {l : List Char}
    (h : ∀ c, l.head? = some c → p c = false) : l.dropWhile p = l := by
  cases l with
  | nil => rfl
  | cons a resto =>
    rw [List.dropWhile_cons, h a rfl]
    simp

theorem tira_id {l : List Char}
    (hh : ∀ c, l.head? = some c → c ≠ '_') (hl : ∀ c, l.getLast? = some c → c ≠ '_') :
    tiraSublinhados l = l := by
  unfold tiraSublinhados
  rw [dropWhile_id (l := l) (p := fun c => c == '_') (fun c hc => by simpa using hh c hc)]
  rw [dropWhile_id (l := l.reverse) (p := fun c => c == '_') (fun c hc => by
    rw [List.head?_reverse] at hc
    simpa using hl c hc)]
  exact List.reverse_reverse l

theorem prefixa_id {l : List Char}
    (h : ∀ c, l.head? = some c → c.isDigit = false) : prefixaDigito l = l := by
  cases l with
  | nil => rfl
  | cons a resto =>
    rw [prefixaDigito, h a rfl]
    simp

/-- A list in normal shape is a fixed point of the normalizer pipeline. -/
theorem normalizaLista_fixa {l : List Char} (h : BoaForma l) : normalizaLista l = l := by
  obtain ⟨hmem, hhead, hlast, hdup⟩ := h
  unfold normalizaLista substituiNaoAlnum
  rw [removerAcentos_id (fun c hc => minuscula_lt128 (hmem c hc))]
  rw [mapaId (fun c hc => paraSublinhado_id (hmem c hc))]
  rw [colapsa_id hdup]
  rw [tira_id (fun c hc => (hhead c hc).1) hlast]
  rw [prefixa_id (fun c hc => (hhead c hc).2)]
  exact mapaId (fun c hc => toLower_de_minuscula c (hmem c hc))

theorem dados_mk (l : List Char) : (String.mk l).data = l := rfl

theorem minuscula_nao_maiuscula {c : Char} (h : ehMinusculaOk c) : c.isUpper = false := by
  cases hu : c.isUpper
  · rfl
  · rw [isUpper_iff] at hu
    rcases h with h | h | h
    · rw [isLower_iff] at h; omega
    · rw [isDigit_iff] at h; omega
    · subst h; revert hu; decide

theorem mem_dropWhile_de {p : Char → Bool} : ∀ {l : List Char} {c : Char},
    c ∈ l → p c = false → c ∈ l.dropWhile p := by
  intro l
  induction l with
  | nil => intro c h _; exact absurd h (by simp)
  | cons a resto ih =>
    intro c h hp
    rw [List.dropWhile_cons]
    by_cases ha : p a = true
    · rw [ha]
      simp only [if_pos rfl]
      rcases List.mem_cons.mp h with h | h
      · exact absurd (h ▸ hp) (by simp [ha, h])
      · exact ih h hp
    · simp only [Bool.not_eq_true] at ha
      rw [ha]
      simpa using h

theorem mem_colapsa_de : ∀ {l : List Char} {c : Char},
    c ∈ l → c ≠ '_' → c ∈ colapsaSublinhados l := by
  intro l
  induction l with
  | nil => intro c h _; exact absurd h (by simp)
  | cons a resto ih =>
    intro c h hc
    cases resto with
    | nil => simpa [colapsaSublinhados] using h
    | cons b r =>
      rw [colapsaSublinhados]
      by_cases hab : a = '_' ∧ b = '_'
      · rw [if_pos hab]
        rcases List.mem_cons.mp h with h | h
        · exact absurd (h ▸ hab.1) hc
        · exact ih h hc
      · rw [if_neg hab]
        rcases List.mem_cons.mp h with h | h
        · exact h ▸ List.mem_cons_self a _
        · exact List.mem_cons_of_mem a (ih h hc)

theorem mem_tira_de {l : List Char} {c : Char} (h : c ∈ l) (hc : c ≠ '_') :
    c ∈ tiraSublinhados l := by
  unfold tiraSublinhados
  rw [List.mem_reverse]
  apply mem_dropWhile_de
  · rw [List.mem_reverse]
    exact mem_dropWhile_de h (by simpa using hc)
  · simpa using hc

theorem normaliza_vazia {l : List Char} (h : normalizaLista l = []) :
    ∀ c ∈ removerAcentos l, ehAlnumAscii c = false := by
  intro c hc
  cases hca : ehAlnumAscii c
  · rfl
  · exfalso
    have hsub : c ≠ '_' := by
      intro he
      rw [he] at hca
      exact absurd hca (by decide)
    have h1 : c ∈ (removerAcentos l).map paraSublinhado :=
      List.mem_map.mpr ⟨c, hc, by unfold paraSublinhado; rw [if_pos hca]⟩
    have h2 : c ∈ substituiNaoAlnum (removerAcentos l) := mem_colapsa_de h1 hsub
    have h3 : c ∈ tiraSublinhados (substituiNaoAlnum (removerAcentos l)) := mem_tira_de h2 hsub
    have h4 : tiraSublinhados (substituiNaoAlnum (removerAcentos l)) ≠ [] :=
      List.ne_nil_of_mem h3
    unfold normalizaLista at h
    rw [List.map_eq_nil_iff] at h
    rcases he : tiraSublinhados (substituiNaoAlnum (removerAcentos l)) with _ | ⟨x, resto⟩
    · exact h4 he
    · rw [he] at h
      rw [prefixaDigito] at h
      by_cases hx : x.isDigit = true
      · rw [if_pos hx] at h
        exact List.cons_ne_nil _ _ h
      · rw [if_neg hx] at h
        exact List.cons_ne_nil _ _ h

/-- C7: `normalizar_nome_coluna` is idempotent: applying the normalizer to
its own output returns the output unchanged, for every raw field name. -/
theorem C7_normalizador_idempotente (n : String) :
    normalizar_nome_coluna (normalizar_nome_coluna n) = normalizar_nome_coluna n := by
  unfold normalizar_nome_coluna
  rw [dados_mk, normalizaLista_fixa (boaForma_normaliza n.data)]

/-- C4: every normalizer output is entirely lowercase, drawn from the
alphabet `[a-z0-9_]`, has no leading or trailing underscore, never starts
with a digit, and is empty only when the accent-stripped input has no ASCII
alphanumeric character at all. -/
theorem C4_formato_normalizador (n : String) :
    (∀ c ∈ (normalizar_nome_coluna n).data,
        (c.isLower || c.isDigit || (c == '_')) = true ∧ c.isUpper = false) ∧
    (∀ c, (normalizar_nome_coluna n).data.head? = some c → c ≠ '_' ∧ c.isDigit = false) ∧
    (∀ c, (normalizar_nome_coluna n).data.getLast? = some c → c ≠ '_') ∧
    (normalizar_nome_coluna n = "" → ∀ c ∈ removerAcentos n.data, ehAlnumAscii c = false) := by
  obtain ⟨hmem, hhead, hlast, _⟩ := boaForma_normaliza n.data
  refine ⟨?_, ?_, ?_, ?_⟩
  · intro c hc
    rw [normalizar_nome_coluna, dados_mk] at hc
    have hm := hmem c hc
    refine ⟨?_, minuscula_nao_maiuscula hm⟩
    rcases hm with h | h | h <;> simp [h]
  · intro c hc
    rw [normalizar_nome_coluna, dados_mk] at hc
    exact hhead c hc
  · intro c hc
    rw [normalizar_nome_coluna, dados_mk] at hc
    exact hlast c hc
  · intro h
    apply normaliza_vazia
    have := congrArg String.data h
    rw [normalizar_nome_coluna, dados_mk] at this
    exact this

/-- Witness for C4 at the concrete inputs `"1abc"` (whose normalization is
`"q_1abc"`) and `"???"` (whose normalization is empty). -/
theorem C4_formato_normalizador_witness :
    (('q'.isLower || 'q'.isDigit || ('q' == '_')) = true ∧ 'q'.isUpper = false) ∧
    ('q' ≠ '_' ∧ 'q'.isDigit = false) ∧
    'c' ≠ '_' ∧
    ehAlnumAscii '?' = false := by
  refine ⟨?_, ?_, ?_, ?_⟩
  · exact (C4_formato_normalizador "1abc").1 'q' (by decide)
  · exact (C4_formato_normalizador "1abc").2.1 'q' (by decide)
  · exact (C4_formato_normalizador "1abc").2.2.1 'c' (by decide)
  · exact (C4_formato_normalizador "???").2.2.2 (by decide) '?' (by decide)

theorem aspas_cons_par (resto : List Char) :
    aspasDuplicadas ('\'' :: '\'' :: resto) = aspasDuplicadas resto := by
  rw [aspasDuplicadas]
  simp

theorem aspas_cons_outra {c : Char} (h : (c == '\'') = false) (resto : List Char) :
    aspasDuplicadas (c :: resto) = aspasDuplicadas resto := by
  cases resto with
  | nil =>
    show (!(c == '\'')) = aspasDuplicadas []
    rw [h]
    rfl
  | cons d r =>
    rw [aspasDuplicadas, h]
    rw [if_neg (by decide)]

theorem aspas_escapadas : ∀ l : List Char, aspasDuplicadas (escaparAspas l) = true := by
  intro l
  induction l with
  | nil => rfl
  | cons c r ih =>
    rw [escaparAspas]
    by_cases hc : c = '\''
    · subst hc
      rw [if_pos (show (('\'' : Char) == '\'') = true by decide), aspas_cons_par]
      exact ih
    · have hb : (c == '\'') = false := by simpa using hc
      rw [hb]
      simp only [Bool.false_eq_true, if_false]
      rw [aspas_cons_outra hb]
      exact ih

/-- The escaper, case-analysed on the NULL conditions. -/
theorem escapar_forma (v : String) :
    escapar_sql_string (some v) =
      if tiraEspacos v = "" ∨ minusculas (tiraEspacos v) = "sem resposta*" then "NULL"
      else "'" ++ String.mk (escaparAspas (tiraEspacos v).data) ++ "'" := by
  show (if v = "" then "NULL"
      else
        if tiraEspacos v = "" ∨ minusculas (tiraEspacos v) = "sem resposta*" then "NULL"
        else "'" ++ String.mk (escaparAspas (tiraEspacos v).data) ++ "'") = _
  by_cases hv : v = ""
  · subst hv
    rw [if_pos rfl, if_pos (Or.inl (by decide))]
  · rw [if_neg hv]

/-- C3: the escaper returns the unquoted literal `NULL` exactly when the
value is absent, empty, whitespace-only after trimming, or a
case-insensitive match of `sem resposta*` after trimming; otherwise it
returns the trimmed value with every embedded single quote doubled, wrapped
in single quotes.  Consequently every output is `NULL` or begins and ends
with a single quote with no un-doubled quote inside; and the four examples
evaluate as stated. -/
theorem C3_contrato_escapador :
    escapar_sql_string none = "NULL" ∧
    (∀ v : String, escapar_sql_string (some v) =
      if tiraEspacos v = "" ∨ minusculas (tiraEspacos v) = "sem resposta*" then "NULL"
      else "'" ++ String.mk (escaparAspas (tiraEspacos v).data) ++ "'") ∧
    (∀ v : Option String, escapar_sql_string v = "NULL" ∨
      ∃ interno : List Char, (escapar_sql_string v).data = '\'' :: (interno ++ ['\'']) ∧
        aspasDuplicadas interno = true) ∧
    escapar_sql_string (some "") = "NULL" ∧
    escapar_sql_string (some "Sem Resposta*") = "NULL" ∧
    escapar_sql_string (some "O'Brien") = "'O''Brien'" := by
  refine ⟨rfl, escapar_forma, ?_, by decide, by decide, by decide⟩
  intro v
  cases v with
  | none => exact Or.inl rfl
  | some v =>
    rw [escapar_forma v]
    by_cases hn : tiraEspacos v = "" ∨ minusculas (tiraEspacos v) = "sem resposta*"
    · rw [if_pos hn]
      exact Or.inl rfl
    · rw [if_neg hn]
      refine Or.inr ⟨escaparAspas (tiraEspacos v).data, ?_, aspas_escapadas _⟩
      rw [String.data_append, String.data_append, dados_mk]
      rfl

theorem inferir_forma (nome : String) :
    inferir_tipo_coluna nome =
      if (contem (minusculas nome) "id" || contem (minusculas nome) "numero" ||
          contem (minusculas nome) "questionario" || contem (minusculas nome) "idade" ||
          contem (minusculas nome) "populacao" || contem (minusculas nome) "familias") = true
      then "INTEGER" else "TEXT" := by
  unfold inferir_tipo_coluna
  cases h1 : contem (minusculas nome) "id" <;>
    cases h2 : contem (minusculas nome) "numero" <;>
      cases h3 : contem (minusculas nome) "questionario" <;>
        cases h4 : contem (minusculas nome) "idade" <;>
          cases h5 : contem (minusculas nome) "populacao" <;>
            cases h6 : contem (minusculas nome) "familias" <;>
              simp [h1, h2, h3, h4, h5, h6]

/-- C5: the type inferrer returns INTEGER exactly when the lowercased raw
name contains one of the six keyword substrings, and TEXT otherwise; it is
a function of the name alone, and the three examples evaluate as stated. -/
theorem C5_contrato_inferidor :
    (∀ nome : String,
      (inferir_tipo_coluna nome = "INTEGER" ↔
        (contem (minusculas nome) "id" || contem (minusculas nome) "numero" ||
         contem (minusculas nome) "questionario" || contem (minusculas nome) "idade" ||
         contem (minusculas nome) "populacao" || contem (minusculas nome) "familias") = true) ∧
      (inferir_tipo_coluna nome = "TEXT" ↔
        (contem (minusculas nome) "id" || contem (minusculas nome) "numero" ||
         contem (minusculas nome) "questionario" || contem (minusculas nome) "idade" ||
         contem (minusculas nome) "populacao" || contem (minusculas nome) "familias") = false)) ∧
    inferir_tipo_coluna "ID_Comunidade" = "INTEGER" ∧
    inferir_tipo_coluna "Nome" = "TEXT" ∧
    inferir_tipo_coluna "Idade_Responsavel" = "INTEGER" := by
  refine ⟨?_, by decide, by decide, by decide⟩
  intro nome
  rw [inferir_forma nome]
  by_cases h : (contem (minusculas nome) "id" || contem (minusculas nome) "numero" ||
      contem (minusculas nome) "questionario" || contem (minusculas nome) "idade" ||
      contem (minusculas nome) "populacao" || contem (minusculas nome) "familias") = true
  · rw [if_pos h]
    constructor
    · exact ⟨fun _ => h, fun _ => rfl⟩
    · constructor
      · intro he
        exact absurd he (by decide)
      · intro hf
        rw [h] at hf
        exact absurd hf (by decide)
  · rw [if_neg h]
    rw [Bool.not_eq_true] at h
    constructor
    · constructor
      · intro he
        exact absurd he (by decide)
      · intro ht
        rw [h] at ht
        exact absurd ht (by decide)
    · exact ⟨fun _ => h, fun _ => rfl⟩

/-- C9: keyword detection happens on the raw lowercased name before accent
removal: the accented header `Número do Questionário` still normalizes to
`numero_do_questionario`, but is typed TEXT, is not marked PRIMARY KEY in
the comunidades table, and gets no FOREIGN KEY clause in the perfis table,
because the accented substrings do not match the ASCII keywords. -/
theorem C9_acentos_sem_palavras_chave :
    normalizar_nome_coluna "Número do Questionário" = "numero_do_questionario" ∧
    inferir_tipo_coluna "Número do Questionário" = "TEXT" ∧
    (contem (minusculas "Número do Questionário") "numero" &&
      contem (minusculas "Número do Questionário") "questionario") = false ∧
    (contem (minusculas "Número do Questionário") "id" &&
      contem (minusculas "Número do Questionário") "questionario") = false ∧
    comunidadesColunas ["Número do Questionário"] = ["    numero_do_questionario TEXT"] ∧
    perfisColunas ["Número do Questionário"] =
      ["    perfil_id INTEGER PRIMARY KEY AUTOINCREMENT",
       "    numero_do_questionario TEXT"] := by
  refine ⟨by decide, by decide, by decide, by decide, by decide, by decide⟩

/-- C1: on the one-row Comunidades dataset with fields
`Numero do Questionario`, `Nome` and the record mapping them to `7` and
`Vila Nova`, the comunidades column lines of the schema are exactly the primary
key line followed by the text line, and the generated insert text contains
the statement with both values quoted (the numeric value included, since the escaper is
type-agnostic). -/
theorem C1_ponta_a_ponta :
    comunidadesColunas ["Numero do Questionario", "Nome"] =
      ["    numero_do_questionario INTEGER PRIMARY KEY", "    nome TEXT"] ∧
    contem (gerar_inserts [[("Numero do Questionario", "7"), ("Nome", "Vila Nova")]]
        ["Numero do Questionario", "Nome"] [] [])
      "INSERT INTO comunidades (numero_do_questionario, nome)\nVALUES ('7', 'Vila Nova');" = true := by
  refine ⟨by decide, by decide⟩

theorem perfisVai_fora : ∀ (r : List String) (n : Nat),
    perfisColunasVai (n + 1) r = (r.map linhasCampoPerfil).flatten := by
  intro r
  induction r with
  | nil => intro n; rfl
  | cons campo resto ih =>
    intro n
    rw [perfisColunasVai, if_neg (Nat.succ_ne_zero n), List.map_cons, List.flatten_cons,
      List.nil_append, ih (n + 1)]
    rfl

theorem perfisColunas_eq (c0 : String) (resto : List String) :
    perfisColunas (c0 :: resto) =
      "    perfil_id INTEGER PRIMARY KEY AUTOINCREMENT" ::
        (linhasCampoPerfil c0 ++ (resto.map linhasCampoPerfil).flatten) := by
  unfold perfisColunas
  rw [perfisColunasVai, if_pos rfl, perfisVai_fora resto 0]
  rw [linhasCampoPerfil]
  rfl

theorem mem_linhas_em_perfis {c0 : String} {resto : List String} {campo x : String}
    (hm : campo ∈ c0 :: resto) (hx : x ∈ linhasCampoPerfil campo) :
    x ∈ perfisColunas (c0 :: resto) := by
  rw [perfisColunas_eq]
  rcases List.mem_cons.mp hm with h | h
  · exact List.mem_cons_of_mem _ (List.mem_append_left _ (h ▸ hx))
  · refine List.mem_cons_of_mem _ (List.mem_append_right _ ?_)
    exact List.mem_flatten.mpr ⟨linhasCampoPerfil campo, List.mem_map_of_mem _ h, hx⟩

/-- C2: for every non-empty perfis field list the generator emits the
synthetic `perfil_id INTEGER PRIMARY KEY AUTOINCREMENT` line immediately
before the own column line of the first field (which is still emitted), and for
every field whose lowered name contains both `id` and `questionario` it
emits, besides the column line of that field, a FOREIGN KEY clause referencing
the fixed literal `comunidades(numero_do_questionario)`. -/
theorem C2_esquema_perfis (c0 : String) (resto : List String) :
    perfisColunas (c0 :: resto) =
      "    perfil_id INTEGER PRIMARY KEY AUTOINCREMENT" ::
        (linhasCampoPerfil c0 ++ (resto.map linhasCampoPerfil).flatten) ∧
    (linhasCampoPerfil c0).head? =
      some ("    " ++ normalizar_nome_coluna c0 ++ " " ++ inferir_tipo_coluna c0) ∧
    (∀ campo ∈ c0 :: resto,
      (contem (minusculas campo) "id" && contem (minusculas campo) "questionario") = true →
        ("    " ++ normalizar_nome_coluna campo ++ " " ++ inferir_tipo_coluna campo)
            ∈ perfisColunas (c0 :: resto) ∧
        ("    FOREIGN KEY (" ++ normalizar_nome_coluna campo ++
            ") REFERENCES comunidades(numero_do_questionario)")
            ∈ perfisColunas (c0 :: resto)) := by
  refine ⟨perfisColunas_eq c0 resto, ?_, ?_⟩
  · unfold linhasCampoPerfil
    by_cases h : (contem (minusculas c0) "id" && contem (minusculas c0) "questionario") = true
    · rw [if_pos h]
      rfl
    · rw [if_neg h]
      rfl
  · intro campo hm hcond
    constructor
    · apply mem_linhas_em_perfis hm
      rw [linhasCampoPerfil, if_pos hcond]
      exact List.mem_cons_self _ _
    · apply mem_linhas_em_perfis hm
      rw [linhasCampoPerfil, if_pos hcond]
      exact List.mem_cons_of_mem _ (List.mem_cons_self _ _)

/-- Witness for C2 at the concrete field list `["ID do Questionario", "Nome"]`. -/
theorem C2_esquema_perfis_witness :
    "    id_do_questionario INTEGER" ∈ perfisColunas ["ID do Questionario", "Nome"] ∧
    "    FOREIGN KEY (id_do_questionario) REFERENCES comunidades(numero_do_questionario)"
      ∈ perfisColunas ["ID do Questionario", "Nome"] := by
  have h := (C2_esquema_perfis "ID do Questionario" ["Nome"]).2.2 "ID do Questionario"
    (List.mem_cons_self _ _) (by decide)
  have e1 : "    " ++ normalizar_nome_coluna "ID do Questionario" ++ " " ++
      inferir_tipo_coluna "ID do Questionario" = "    id_do_questionario INTEGER" := by decide
  have e2 : "    FOREIGN KEY (" ++ normalizar_nome_coluna "ID do Questionario" ++
      ") REFERENCES comunidades(numero_do_questionario)" =
      "    FOREIGN KEY (id_do_questionario) REFERENCES comunidades(numero_do_questionario)" := by
    decide
  exact ⟨e1 ▸ h.1, e2 ▸ h.2⟩

theorem prefixOf_proprio_append : ∀ (p t : List Char), p.isPrefixOf (p ++ t) = true := by
  intro p t
  induction p with
  | nil => simp
  | cons a r ih =>
    rw [List.cons_append, List.isPrefixOf_cons₂]
    simp [ih]

theorem contem_alvo {s pat resto : List Char} (h : ∃ t, s = t ++ (pat ++ resto)) :
    contemLista s pat = true := by
  obtain ⟨t, ht⟩ := h
  rw [contemLista, List.any_eq_true]
  refine ⟨pat ++ resto, ?_, prefixOf_proprio_append pat resto⟩
  rw [List.mem_tails]
  exact ⟨t, ht.symm⟩

theorem dados_injetivo {a b : String} (h : a.data = b.data) : a = b :=
  String.ext h

/-- C8: for non-empty field lists, the generated schema text starts with the
fixed header that drops `perfis` before `comunidades` and then opens
`CREATE TABLE comunidades`, and the remainder of the text contains
`CREATE TABLE perfis (` — so the drops and creations appear in the stated
order. -/
theorem C8_ordem_esquema (cc pc : List String) (hc : cc ≠ []) (hp : pc ≠ []) :
    ∃ resto : String,
      gerar_schema cc pc =
        "-- Schema gerado automaticamente\n-- Encoding: UTF-8\n\nDROP TABLE IF EXISTS perfis;\nDROP TABLE IF EXISTS comunidades;\n\nCREATE TABLE comunidades (\n"
          ++ resto ∧
      contem resto "CREATE TABLE perfis (" = true := by
  refine ⟨juntaCom ",\n" (comunidadesColunas cc) ++ "\n);\n\nCREATE TABLE perfis (\n" ++
      juntaCom ",\n" (perfisColunas pc) ++ "\n);\n", ?_, ?_⟩
  · apply dados_injetivo
    have h1 : ("-- Schema gerado automaticamente\n-- Encoding: UTF-8\n\nDROP TABLE IF EXISTS perfis;\nDROP TABLE IF EXISTS comunidades;\n\nCREATE TABLE comunidades (\n" : String).data =
        "-- Schema gerado automaticamente".data ++ "\n".data ++ "-- Encoding: UTF-8\n".data ++
        "\n".data ++ "DROP TABLE IF EXISTS perfis;".data ++ "\n".data ++
        "DROP TABLE IF EXISTS comunidades;\n".data ++ "\n".data ++
        "CREATE TABLE comunidades (".data ++ "\n".data := by decide
    have h2 : ("\n);\n\nCREATE TABLE perfis (\n" : String).data =
        "\n".data ++ ");\n".data ++ "\n".data ++ "CREATE TABLE perfis (".data ++ "\n".data := by
      decide
    have h3 : ("\n);\n" : String).data = "\n".data ++ ");\n".data := by decide
    simp [gerar_schema, gerar_schema_linhas, juntaCom, h1, h2, h3, List.append_assoc]
  · rw [contem]
    apply contem_alvo
    refine ⟨(juntaCom ",\n" (comunidadesColunas cc)).data ++ "\n);\n\n".data, ?_⟩
    have h4 : ("\n);\n\nCREATE TABLE perfis (\n" : String).data =
        "\n);\n\n".data ++ "CREATE TABLE perfis (".data ++ "\n".data := by decide
    simp [String.data_append, h4, List.append_assoc]
    rfl

/-- Witness for C8 at the concrete field lists `["Nome"]`, `["Nome"]`. -/
theorem C8_ordem_esquema_witness :
    ∃ resto : String,
      gerar_schema ["Nome"] ["Nome"] =
        "-- Schema gerado automaticamente\n-- Encoding: UTF-8\n\nDROP TABLE IF EXISTS perfis;\nDROP TABLE IF EXISTS comunidades;\n\nCREATE TABLE comunidades (\n"
          ++ resto ∧
      contem resto "CREATE TABLE perfis (" = true :=
  C8_ordem_esquema ["Nome"] ["Nome"] (by decide) (by decide)

theorem prefixo_cancela : ∀ (q : List Char) {a b : Char}, (a == b) = false →
    ∀ (pa pb : List Char), ((q ++ a :: pa).isPrefixOf (q ++ b :: pb)) = false := by
  intro q
  induction q with
  | nil =>
    intro a b hab pa pb
    rw [List.nil_append, List.nil_append, List.isPrefixOf_cons₂, hab]
    simp
  | cons c r ih =>
    intro a b hab pa pb
    rw [List.cons_append, List.cons_append, List.isPrefixOf_cons₂, beq_self_eq_true]
    simpa using ih hab pa pb

theorem comeca_de_divisao {p s : String} (r x : String) (h : s = p ++ r) :
    comecaCom p (s ++ x) = true := by
  subst h
  unfold comecaCom
  rw [String.data_append, String.data_append, List.append_assoc]
  exact prefixOf_proprio_append _ _

theorem nao_comeca_cabecas {p s : String} {a b : Char} {pa pb : List Char} (x : String)
    (hp : p.data = a :: pa) (hs : s.data = b :: pb) (hab : (a == b) = false) :
    comecaCom p (s ++ x) = false := by
  unfold comecaCom
  rw [String.data_append, hp, hs, List.cons_append, List.isPrefixOf_cons₂, hab]
  simp

theorem filtra_blocos {α : Type} (P : String → Bool) (f : α → List String) (g : α → String)
    (h : ∀ a, (f a).filter P = [g a]) :
    ∀ dados : List α, ((dados.map f).flatten).filter P = dados.map g := by
  intro dados
  induction dados with
  | nil => rfl
  | cons a r ih =>
    rw [List.map_cons, List.flatten_cons, List.filter_append, h, ih, List.map_cons,
      List.singleton_append]

theorem comeca_via_dados {p l : String} {resto : List Char}
    (h : l.data = p.data ++ resto) : comecaCom p l = true := by
  unfold comecaCom
  rw [h]
  exact prefixOf_proprio_append _ _

theorem nao_comeca_via_dados {p l : String} {a b : Char} {pa pb : List Char}
    (hp : p.data = a :: pa) (hl : l.data = b :: pb) (hab : (a == b) = false) :
    comecaCom p l = false := by
  unfold comecaCom
  rw [hp, hl, List.isPrefixOf_cons₂, hab]
  simp

theorem dados_ins_com (x y : String) :
    ("INSERT INTO comunidades (" ++ x ++ y).data =
      "INSERT INTO ".data ++ ("comunidades (".data ++ (x.data ++ y.data)) := by
  have hsplit : "INSERT INTO comunidades (".data =
      "INSERT INTO ".data ++ "comunidades (".data := by decide
  simp [hsplit, List.append_assoc]

theorem dados_ins_perf (x y : String) :
    ("INSERT INTO perfis (" ++ x ++ y).data =
      "INSERT INTO ".data ++ ("perfis (".data ++ (x.data ++ y.data)) := by
  have hsplit : "INSERT INTO perfis (".data =
      "INSERT INTO ".data ++ "perfis (".data := by decide
  simp [hsplit, List.append_assoc]

theorem dados_val (x y : String) :
    ("VALUES (" ++ x ++ y).data = 'V' :: ("ALUES (".data ++ (x.data ++ y.data)) := by
  have hsplit : "VALUES (".data = 'V' :: "ALUES (".data := by decide
  simp [hsplit, List.append_assoc]

theorem filtra_ins_com (cc : List String) (linha : Registro) :
    (blocoComunidade cc linha).filter (fun l => comecaCom "INSERT INTO " l) =
      ["INSERT INTO comunidades (" ++ juntaCom ", " (cc.map normalizar_nome_coluna) ++ ")"] := by
  unfold blocoComunidade
  have h1 := comeca_via_dados (p := "INSERT INTO ")
    (dados_ins_com (juntaCom ", " (cc.map normalizar_nome_coluna)) ")")
  have h2 := nao_comeca_via_dados (p := "INSERT INTO ")
    (by decide : ("INSERT INTO " : String).data = 'I' :: "NSERT INTO ".data)
    (dados_val (juntaCom ", " (cc.map (fun c => escapar_sql_string (some (buscaCampo linha c))))) ");")
    (by decide)
  simp only [List.filter_cons, h1, h2]
  simp [List.filter]
  decide

theorem filtra_ins_perf (pc : List String) (linha : Registro) :
    (blocoPerfil pc linha).filter (fun l => comecaCom "INSERT INTO " l) =
      ["INSERT INTO perfis (" ++ juntaCom ", " (pc.map normalizar_nome_coluna) ++ ")"] := by
  unfold blocoPerfil
  have h1 := comeca_via_dados (p := "INSERT INTO ")
    (dados_ins_perf (juntaCom ", " (pc.map normalizar_nome_coluna)) ")")
  have h2 := nao_comeca_via_dados (p := "INSERT INTO ")
    (by decide : ("INSERT INTO " : String).data = 'I' :: "NSERT INTO ".data)
    (dados_val (juntaCom ", " (pc.map (fun c => escapar_sql_string (some (buscaCampo linha c))))) ");")
    (by decide)
  simp only [List.filter_cons, h1, h2]
  simp [List.filter]
  decide

theorem dados_ins_com_cabeca (x y : String) :
    ("INSERT INTO comunidades (" ++ x ++ y).data =
      'I' :: ("NSERT INTO comunidades (".data ++ (x.data ++ y.data)) := by
  have hsplit : "INSERT INTO comunidades (".data =
      'I' :: "NSERT INTO comunidades (".data := by decide
  simp [hsplit, List.append_assoc]

theorem dados_ins_perf_cabeca (x y : String) :
    ("INSERT INTO perfis (" ++ x ++ y).data =
      'I' :: ("NSERT INTO perfis (".data ++ (x.data ++ y.data)) := by
  have hsplit : "INSERT INTO perfis (".data =
      'I' :: "NSERT INTO perfis (".data := by decide
  simp [hsplit, List.append_assoc]

theorem dados_val_pref (x y : String) :
    ("VALUES (" ++ x ++ y).data = "VALUES (".data ++ (x.data ++ y.data) := by
  simp [List.append_assoc]

theorem filtra_val_com (cc : List String) (linha : Registro) :
    (blocoComunidade cc linha).filter (fun l => comecaCom "VALUES (" l) =
      ["VALUES (" ++
        juntaCom ", " (cc.map (fun c => escapar_sql_string (some (buscaCampo linha c)))) ++ ");"] := by
  unfold blocoComunidade
  have h1 := nao_comeca_via_dados (p := "VALUES (")
    (by decide : ("VALUES (" : String).data = 'V' :: "ALUES (".data)
    (dados_ins_com_cabeca (juntaCom ", " (cc.map normalizar_nome_coluna)) ")")
    (by decide)
  have h2 := comeca_via_dados (p := "VALUES (")
    (dados_val_pref
      (juntaCom ", " (cc.map (fun c => escapar_sql_string (some (buscaCampo linha c))))) ");")
  simp only [List.filter_cons, h1, h2]
  simp [List.filter]
  decide

theorem filtra_val_perf (pc : List String) (linha : Registro) :
    (blocoPerfil pc linha).filter (fun l => comecaCom "VALUES (" l) =
      ["VALUES (" ++
        juntaCom ", " (pc.map (fun c => escapar_sql_string (some (buscaCampo linha c)))) ++ ");"] := by
  unfold blocoPerfil
  have h1 := nao_comeca_via_dados (p := "VALUES (")
    (by decide : ("VALUES (" : String).data = 'V' :: "ALUES (".data)
    (dados_ins_perf_cabeca (juntaCom ", " (pc.map normalizar_nome_coluna)) ")")
    (by decide)
  have h2 := comeca_via_dados (p := "VALUES (")
    (dados_val_pref
      (juntaCom ", " (pc.map (fun c => escapar_sql_string (some (buscaCampo linha c))))) ");")
  simp only [List.filter_cons, h1, h2]
  simp [List.filter]
  decide

/-- C6: the insert generator emits exactly one `INSERT INTO` line and one
`VALUES ...;` line per record, in record order, all comunidades statements
before all perfis statements; the column list is the normalized field names
in original order, the value list is the escaped values looked up by the
original field name with `""` (hence `NULL`) substituted for an absent
field; the output is just these lines joined — no batching, no transaction
wrapper lines. -/
theorem C6_contrato_inserts (cd : List Registro) (cc : List String)
    (pd : List Registro) (pc : List String) :
    gerar_inserts cd cc pd pc = juntaCom "\n" (gerar_inserts_linhas cd cc pd pc) ∧
    (gerar_inserts_linhas cd cc pd pc).filter (fun l => comecaCom "INSERT INTO " l) =
      cd.map (fun _ =>
        "INSERT INTO comunidades (" ++ juntaCom ", " (cc.map normalizar_nome_coluna) ++ ")") ++
      pd.map (fun _ =>
        "INSERT INTO perfis (" ++ juntaCom ", " (pc.map normalizar_nome_coluna) ++ ")") ∧
    (gerar_inserts_linhas cd cc pd pc).filter (fun l => comecaCom "VALUES (" l) =
      cd.map (fun linha => "VALUES (" ++
        juntaCom ", " (cc.map (fun c => escapar_sql_string (some (buscaCampo linha c)))) ++ ");") ++
      pd.map (fun linha => "VALUES (" ++
        juntaCom ", " (pc.map (fun c => escapar_sql_string (some (buscaCampo linha c)))) ++ ");") ∧
    (∀ (linha : Registro) (c : String), List.lookup c linha = none →
      escapar_sql_string (some (buscaCampo linha c)) = "NULL") := by
  refine ⟨rfl, ?_, ?_, ?_⟩
  · unfold gerar_inserts_linhas
    simp only [List.filter_append]
    rw [filtra_blocos _ _ _ (filtra_ins_com cc) cd,
      filtra_blocos _ _ _ (filtra_ins_perf pc) pd]
    have hh : (["-- Inserts gerados automaticamente", "-- Encoding: UTF-8\n",
        "-- Inserindo comunidades\n"] : List String).filter
          (fun l => comecaCom "INSERT INTO " l) = [] := by decide
    have hs : (["\n-- Inserindo perfis\n"] : List String).filter
        (fun l => comecaCom "INSERT INTO " l) = [] := by decide
    rw [hh, hs]
    simp
  · unfold gerar_inserts_linhas
    simp only [List.filter_append]
    rw [filtra_blocos _ _ _ (filtra_val_com cc) cd,
      filtra_blocos _ _ _ (filtra_val_perf pc) pd]
    have hh : (["-- Inserts gerados automaticamente", "-- Encoding: UTF-8\n",
        "-- Inserindo comunidades\n"] : List String).filter
          (fun l => comecaCom "VALUES (" l) = [] := by decide
    have hs : (["\n-- Inserindo perfis\n"] : List String).filter
        (fun l => comecaCom "VALUES (" l) = [] := by decide
    rw [hh, hs]
    simp
  · intro linha c h
    have hb : buscaCampo linha c = "" := by
      rw [buscaCampo, h]
      rfl
    rw [hb]
    rfl

/-- Witness for C6 at a record that lacks the looked-up field. -/
theorem C6_contrato_inserts_witness :
    escapar_sql_string (some (buscaCampo [("Nome", "X")] "Idade")) = "NULL" :=
  (C6_contrato_inserts [] [] [] []).2.2.2 [("Nome", "X")] "Idade" (by decide)

theorem nao_comeca_perf_em_com (x y : String) :
    comecaCom "INSERT INTO perfis (" ("INSERT INTO comunidades (" ++ x ++ y) = false := by
  unfold comecaCom
  have hp : ("INSERT INTO perfis (" : String).data =
      "INSERT INTO ".data ++ 'p' :: "erfis (".data := by decide
  have hl : ("INSERT INTO comunidades (" ++ x ++ y).data =
      "INSERT INTO ".data ++ 'c' :: ("omunidades (".data ++ (x.data ++ y.data)) := by
    have hsplit : "INSERT INTO comunidades (".data =
        "INSERT INTO ".data ++ 'c' :: "omunidades (".data := by decide
    simp [hsplit, List.append_assoc]
  rw [hp, hl]
  exact prefixo_cancela _ (by decide) _ _

theorem dados_ins_perf_total (x y : String) :
    ("INSERT INTO perfis (" ++ x ++ y).data =
      "INSERT INTO perfis (".data ++ (x.data ++ y.data) := by
  simp [List.append_assoc]

theorem filtra_blocos_nada {α : Type} (P : String → Bool) (f : α → List String)
    (h : ∀ a, (f a).filter P = []) :
    ∀ dados : List α, ((dados.map f).flatten).filter P = [] := by
  intro dados
  induction dados with
  | nil => rfl
  | cons a r ih =>
    rw [List.map_cons, List.flatten_cons, List.filter_append, h, ih]
    rfl

theorem filtra_perf_em_com (cc : List String) (linha : Registro) :
    (blocoComunidade cc linha).filter (fun l => comecaCom "INSERT INTO perfis (" l) = [] := by
  unfold blocoComunidade
  have h1 := nao_comeca_perf_em_com (juntaCom ", " (cc.map normalizar_nome_coluna)) ")"
  have h2 := nao_comeca_via_dados (p := "INSERT INTO perfis (")
    (by decide : ("INSERT INTO perfis (" : String).data = 'I' :: "NSERT INTO perfis (".data)
    (dados_val (juntaCom ", " (cc.map (fun c => escapar_sql_string (some (buscaCampo linha c))))) ");")
    (by decide)
  simp only [List.filter_cons, h1, h2]
  simp [List.filter]
  decide

theorem filtra_perf_em_perf (pc : List String) (linha : Registro) :
    (blocoPerfil pc linha).filter (fun l => comecaCom "INSERT INTO perfis (" l) =
      ["INSERT INTO perfis (" ++ juntaCom ", " (pc.map normalizar_nome_coluna) ++ ")"] := by
  unfold blocoPerfil
  have h1 := comeca_via_dados (p := "INSERT INTO perfis (")
    (dados_ins_perf_total (juntaCom ", " (pc.map normalizar_nome_coluna)) ")")
  have h2 := nao_comeca_via_dados (p := "INSERT INTO perfis (")
    (by decide : ("INSERT INTO perfis (" : String).data = 'I' :: "NSERT INTO perfis (".data)
    (dados_val (juntaCom ", " (pc.map (fun c => escapar_sql_string (some (buscaCampo linha c))))) ");")
    (by decide)
  simp only [List.filter_cons, h1, h2]
  simp [List.filter]
  decide

/-- C10: the synthetic `perfil_id` column exists only in the schema: every
perfis INSERT line carries exactly the normalized source field names (so
`perfil_id` can occur there only if a source field normalizes to it), and
the number of column names equals the number of values for every record;
the synthetic key line itself lives in the perfis CREATE TABLE lines. -/
theorem C10_perfil_id_somente_no_esquema (cd : List Registro) (cc : List String)
    (pd : List Registro) (pc : List String) :
    (gerar_inserts_linhas cd cc pd pc).filter (fun l => comecaCom "INSERT INTO perfis (" l) =
      pd.map (fun _ =>
        "INSERT INTO perfis (" ++ juntaCom ", " (pc.map normalizar_nome_coluna) ++ ")") ∧
    (∀ linha : Registro, (pc.map normalizar_nome_coluna).length =
      (pc.map (fun c => escapar_sql_string (some (buscaCampo linha c)))).length) ∧
    (pc ≠ [] → "    perfil_id INTEGER PRIMARY KEY AUTOINCREMENT" ∈ perfisColunas pc) ∧
    ("perfil_id" ∈ pc.map normalizar_nome_coluna ↔
      ∃ campo, campo ∈ pc ∧ normalizar_nome_coluna campo = "perfil_id") := by
  refine ⟨?_, ?_, ?_, List.mem_map⟩
  · unfold gerar_inserts_linhas
    simp only [List.filter_append]
    rw [filtra_blocos_nada _ _ (filtra_perf_em_com cc) cd,
      filtra_blocos _ _ _ (filtra_perf_em_perf pc) pd]
    have hh : (["-- Inserts gerados automaticamente", "-- Encoding: UTF-8\n",
        "-- Inserindo comunidades\n"] : List String).filter
          (fun l => comecaCom "INSERT INTO perfis (" l) = [] := by decide
    have hs : (["\n-- Inserindo perfis\n"] : List String).filter
        (fun l => comecaCom "INSERT INTO perfis (" l) = [] := by decide
    rw [hh, hs]
    simp
  · intro linha
    simp
  · intro h
    cases pc with
    | nil => exact absurd rfl h
    | cons c0 resto =>
      rw [perfisColunas_eq]
      exact List.mem_cons_self _ _

/-- Witness for C10: the synthetic key line is present in the schema lines
for the concrete perfis field list `["Nome"]`. -/
theorem C10_perfil_id_somente_no_esquema_witness :
    "    perfil_id INTEGER PRIMARY KEY AUTOINCREMENT" ∈ perfisColunas ["Nome"] :=
  (C10_perfil_id_somente_no_esquema [] [] [] ["Nome"]).2.2.1 (by decide)

end GenerateSql
